import Mathlib

/-!
Verification of the replicator-generation core of the channeld-ue-plugin
repository (`ReplicatorGeneratorManager.cpp`, `ReplicatorCodeGenerator.h`).

Strings (`FString`) are modelled as lists of characters; the file system is
modelled as an explicit world value with success oracles for the external
write/mkdir operations; the engine JSON serializer (an external collaborator)
is modelled at the level of parsed JSON objects.
-/

namespace ChanneldGen

/-- FString values are modelled as lists of characters. -/
abbrev Str := List Char

/-! ## Decimal digit rendering (for counter suffixes) -/

/-- One decimal digit as a character. -/
def digitChar (d : Nat) : Char :=
  match d with
  | 0 => '0'
  | 1 => '1'
  | 2 => '2'
  | 3 => '3'
  | 4 => '4'
  | 5 => '5'
  | 6 => '6'
  | 7 => '7'
  | 8 => '8'
  | 9 => '9'
  | _ => '0'

/-- Numeric value of a digit character. -/
def charVal (c : Char) : Nat := c.toNat - 48

/-- Decimal rendering with explicit fuel (structural, so that it reduces in
the kernel); fuel at least the number itself always suffices. -/
def natToDigitsFuel : Nat → Nat → Str
  | 0, n => [digitChar n]
  | fuel + 1, n =>
    if n < 10 then [digitChar n]
    else natToDigitsFuel fuel (n / 10) ++ [digitChar (n % 10)]

/-- Decimal rendering of a natural number, most significant digit first. -/
def natToDigits (n : Nat) : Str := natToDigitsFuel n n

/-- Reading a digit string back as a number. -/
def fromDigits (ds : Str) : Nat := ds.foldl (fun acc c => acc * 10 + charVal c) 0

lemma charVal_digitChar : ∀ d, d < 10 → charVal (digitChar d) = d := by decide

lemma digitChar_ne_underscore (d : Nat) : digitChar d ≠ '_' := by
  unfold digitChar
  split <;> decide

lemma foldl_digits_append (a : Nat) (ds : Str) (c : Char) :
    (ds ++ [c]).foldl (fun acc x => acc * 10 + charVal x) a
      = (ds.foldl (fun acc x => acc * 10 + charVal x) a) * 10 + charVal c := by
  rw [List.foldl_append]
  rfl

lemma fromDigits_natToDigitsFuel :
    ∀ (fuel n : Nat), n ≤ fuel → fromDigits (natToDigitsFuel fuel n) = n := by
  intro fuel
  induction fuel with
  | zero =>
    intro n hn
    have : n = 0 := Nat.le_zero.mp hn
    subst this
    decide
  | succ fuel ih =>
    intro n hn
    show fromDigits (if n < 10 then [digitChar n] else _) = n
    split
    · case isTrue h =>
      unfold fromDigits
      simp [List.foldl, charVal_digitChar n h]
    · case isFalse h =>
      unfold fromDigits
      rw [foldl_digits_append]
      have hfuel : n / 10 ≤ fuel := by
        have : n / 10 < n := Nat.div_lt_self (by omega) (by omega)
        omega
      have := ih (n / 10) hfuel
      unfold fromDigits at this
      rw [this, charVal_digitChar (n % 10) (Nat.mod_lt n (by omega))]
      omega

lemma fromDigits_natToDigits (n : Nat) : fromDigits (natToDigits n) = n :=
  fromDigits_natToDigitsFuel n n le_rfl

lemma natToDigits_inj {m n : Nat} (h : natToDigits m = natToDigits n) : m = n := by
  have := congrArg fromDigits h
  rwa [fromDigits_natToDigits, fromDigits_natToDigits] at this

lemma underscore_not_mem_natToDigitsFuel :
    ∀ (fuel n : Nat), '_' ∉ natToDigitsFuel fuel n := by
  intro fuel
  induction fuel with
  | zero =>
    intro n
    simp only [natToDigitsFuel, List.mem_singleton]
    intro hval
    exact digitChar_ne_underscore n hval.symm
  | succ fuel ih =>
    intro n
    show '_' ∉ (if n < 10 then [digitChar n] else _)
    split
    · simp only [List.mem_singleton]
      intro hval
      exact digitChar_ne_underscore n hval.symm
    · simp only [List.mem_append, List.mem_singleton]
      rintro (hmem | hval)
      · exact ih (n / 10) hmem
      · exact digitChar_ne_underscore (n % 10) hval.symm

lemma underscore_not_mem_natToDigits (n : Nat) : '_' ∉ natToDigits n :=
  underscore_not_mem_natToDigitsFuel n n

/-! ## Name deduplication (`TargetActorSameNameCounter` / `IllegalClassNameIndex`) -/

/-- Composing a base name with a counter suffix: `base_k`. -/
def composeName (base : Str) (k : Nat) : Str := base ++ '_' :: natToDigits k

/-- Per-run mutable state of the name deduplicator: the per-base-name counter
map `TargetActorSameNameCounter` (0 encodes "never seen") and the run-scoped
`IllegalClassNameIndex` used for anonymous/illegal base names. Both fields are
declared in `ReplicatorCodeGenerator.h`. -/
structure DedupState where
  counters : Str → Nat
  illegalIdx : Nat

/-- Fresh per-run deduplication state. -/
def initDedupState : DedupState := ⟨fun _ => 0, 0⟩

/-- Pointwise update of the counter map. -/
def setCounter (f : Str → Nat) (b : Str) (k : Nat) : Str → Nat :=
  fun x => if x = b then k else f x

/-- Modelled from the spec: the name-assignment policy of `CreateDecorateActor`
(whose implementation is not among the source files; only the counter fields
`TargetActorSameNameCounter` and `IllegalClassNameIndex` are declared in
`ReplicatorCodeGenerator.h`). Spec 4.2: a base name not yet seen in the run is
returned unchanged and recorded; a repeated base name gets a monotonically
increasing per-run counter suffix scoped to that base name; an empty/illegal
base name uses the separate run-scoped counter in place of the base name. -/
def assignName (b : Str) (st : DedupState) : Str × DedupState :=
  if b = [] then
    (composeName [] st.illegalIdx, ⟨st.counters, st.illegalIdx + 1⟩)
  else if st.counters b = 0 then
    (b, ⟨setCounter st.counters b 1, st.illegalIdx⟩)
  else
    (composeName b (st.counters b), ⟨setCounter st.counters b (st.counters b + 1), st.illegalIdx⟩)

/-- Runs the deduplicator over a list of base names, threading the per-run
state, and returns the assigned identifiers in call order. -/
def runDedup : List Str → DedupState → List Str × DedupState
  | [], st => ([], st)
  | b :: bs, st =>
    let p := assignName b st
    let q := runDedup bs p.2
    (p.1 :: q.1, q.2)

/-- The identifiers assigned during one generation run over the given base
names, starting (as every run does) from the fresh per-run state. -/
def nameDedupRun (bs : List Str) : List Str := (runDedup bs initDedupState).1

lemma underscore_mem_composeName (b : Str) (k : Nat) : '_' ∈ composeName b k := by
  simp [composeName]

lemma composeName_ne_of_no_underscore {s : Str} (h : '_' ∉ s) (b : Str) (k : Nat) :
    composeName b k ≠ s := by
  intro he
  exact h (he ▸ underscore_mem_composeName b k)

lemma append_underscore_inj :
    ∀ {b₁ : Str} {b₂ u v : Str}, '_' ∉ b₁ → '_' ∉ b₂ →
      b₁ ++ '_' :: u = b₂ ++ '_' :: v → b₁ = b₂ ∧ u = v := by
  intro b₁
  induction b₁ with
  | nil =>
    intro b₂ u v _ h₂ h
    cases b₂ with
    | nil => simpa using h
    | cons c cs =>
      simp only [List.nil_append, List.cons_append, List.cons.injEq] at h
      exfalso
      apply h₂
      rw [← h.1]
      exact List.mem_cons_self _ _
  | cons a as ih =>
    intro b₂ u v h₁ h₂ h
    cases b₂ with
    | nil =>
      simp only [List.cons_append, List.nil_append, List.cons.injEq] at h
      exfalso
      apply h₁
      rw [h.1]
      exact List.mem_cons_self _ _
    | cons c cs =>
      simp only [List.cons_append, List.cons.injEq] at h
      have h₁' : '_' ∉ as := fun hm => h₁ (List.mem_cons_of_mem _ hm)
      have h₂' : '_' ∉ cs := fun hm => h₂ (List.mem_cons_of_mem _ hm)
      obtain ⟨he, hu⟩ := ih h₁' h₂' h.2
      exact ⟨by rw [h.1, he], hu⟩

lemma composeName_inj {b₁ b₂ : Str} {k₁ k₂ : Nat} (h₁ : '_' ∉ b₁) (h₂ : '_' ∉ b₂)
    (h : composeName b₁ k₁ = composeName b₂ k₂) : b₁ = b₂ ∧ k₁ = k₂ := by
  obtain ⟨hb, hd⟩ := append_underscore_inj h₁ h₂ h
  exact ⟨hb, natToDigits_inj hd⟩

/-- Classification of every identifier a run can have produced: either an
unmodified underscore-free base name, or a counter-suffixed composition. -/
def ProducedShape (o : Str) : Prop :=
  ('_' ∉ o ∧ o ≠ []) ∨ ∃ b k, '_' ∉ b ∧ o = composeName b k

/-- Invariant tying the deduplicator state to the identifiers already produced
in the run: an unseen plain name has not been produced, every produced
suffixed name used a counter value strictly below the stored one, and every
produced anonymous name used an index below the run-scoped counter. -/
def DedupInv (st : DedupState) (prev : List Str) : Prop :=
  (∀ o ∈ prev, ProducedShape o) ∧
  (∀ b, b ≠ [] → '_' ∉ b → st.counters b = 0 → b ∉ prev) ∧
  (∀ b k, b ≠ [] → '_' ∉ b → composeName b k ∈ prev → k < st.counters b) ∧
  (∀ k, composeName [] k ∈ prev → k < st.illegalIdx)

lemma dedupInv_nil (st : DedupState)
    (h2 : ∀ b, st.counters b = 0) (h3 : st.illegalIdx = 0) : DedupInv st [] := by
  refine ⟨?_, ?_, ?_, ?_⟩ <;> simp [h2, h3]

lemma assignName_fresh {b : Str} {st : DedupState} {prev : List Str}
    (hb : '_' ∉ b) (hInv : DedupInv st prev) :
    (assignName b st).1 ∉ prev ∧ DedupInv (assignName b st).2 ((assignName b st).1 :: prev) := by
  obtain ⟨hShape, hPlain, hComp, hAnon⟩ := hInv
  by_cases hbe : b = []
  · subst hbe
    have ha : assignName [] st
        = (composeName [] st.illegalIdx, ⟨st.counters, st.illegalIdx + 1⟩) := rfl
    rw [ha]
    constructor
    · intro hmem
      exact absurd (hAnon _ hmem) (lt_irrefl _)
    · refine ⟨?_, ?_, ?_, ?_⟩
      · intro o ho
        rcases List.mem_cons.mp ho with rfl | ho'
        · exact Or.inr ⟨[], st.illegalIdx, by simp, rfl⟩
        · exact hShape o ho'
      · intro b' hb'ne hb'u hc hmem
        rcases List.mem_cons.mp hmem with rfl | hmem'
        · exact hb'u (underscore_mem_composeName _ _)
        · exact hPlain b' hb'ne hb'u hc hmem'
      · intro b' k hb'ne hb'u hmem
        rcases List.mem_cons.mp hmem with he | hmem'
        · obtain ⟨hbb, _⟩ := composeName_inj hb'u (by simp) he
          exact absurd hbb hb'ne
        · exact hComp b' k hb'ne hb'u hmem'
      · intro k hmem
        rcases List.mem_cons.mp hmem with he | hmem'
        · obtain ⟨_, hkk⟩ := composeName_inj (by simp) (by simp) he
          show k < st.illegalIdx + 1
          omega
        · exact Nat.lt_succ_of_lt (hAnon k hmem')
  · by_cases hc0 : st.counters b = 0
    · simp only [assignName, if_neg hbe, if_pos hc0]
      constructor
      · exact hPlain b hbe hb hc0
      · refine ⟨?_, ?_, ?_, ?_⟩
        · intro o ho
          rcases List.mem_cons.mp ho with rfl | ho'
          · exact Or.inl ⟨hb, hbe⟩
          · exact hShape o ho'
        · intro b' hb'ne hb'u hcnt hmem
          have hb'b : ¬ (b' = b) := by
            intro he
            subst he
            simp [setCounter] at hcnt
          rcases List.mem_cons.mp hmem with rfl | hmem'
          · exact hb'b rfl
          · have hold : st.counters b' = 0 := by
              simpa [setCounter, hb'b] using hcnt
            exact hPlain b' hb'ne hb'u hold hmem'
        · intro b' k hb'ne hb'u hmem
          rcases List.mem_cons.mp hmem with he | hmem'
          · exact absurd he (composeName_ne_of_no_underscore hb b' k)
          · have hlt := hComp b' k hb'ne hb'u hmem'
            by_cases hbb : b' = b
            · subst hbb
              rw [hc0] at hlt
              exact absurd hlt (Nat.not_lt_zero k)
            · simpa [setCounter, hbb] using hlt
        · intro k hmem
          rcases List.mem_cons.mp hmem with he | hmem'
          · exact absurd he (composeName_ne_of_no_underscore hb [] k)
          · exact hAnon k hmem'
    · simp only [assignName, if_neg hbe, if_neg hc0]
      constructor
      · intro hmem
        rcases hShape _ hmem with ⟨hu, _⟩ | ⟨b', k', hb'u, he⟩
        · exact hu (underscore_mem_composeName _ _)
        · obtain ⟨hbb, hkk⟩ := composeName_inj hb hb'u he
          have hb'ne : b' ≠ [] := by
            rw [← hbb]
            exact hbe
          have := hComp b' k' hb'ne hb'u (he ▸ hmem)
          rw [← hbb] at this
          omega
      · refine ⟨?_, ?_, ?_, ?_⟩
        · intro o ho
          rcases List.mem_cons.mp ho with rfl | ho'
          · exact Or.inr ⟨b, st.counters b, hb, rfl⟩
          · exact hShape o ho'
        · intro b' hb'ne hb'u hcnt hmem
          have hb'b : ¬ (b' = b) := by
            intro he
            subst he
            simp [setCounter] at hcnt
          rcases List.mem_cons.mp hmem with rfl | hmem'
          · exact hb'u (underscore_mem_composeName _ _)
          · have hold : st.counters b' = 0 := by
              simpa [setCounter, hb'b] using hcnt
            exact hPlain b' hb'ne hb'u hold hmem'
        · intro b' k hb'ne hb'u hmem
          rcases List.mem_cons.mp hmem with he | hmem'
          · obtain ⟨hbb, hkk⟩ := composeName_inj hb'u hb he
            subst hbb
            simp [setCounter]
            omega
          · have hlt := hComp b' k hb'ne hb'u hmem'
            by_cases hbb : b' = b
            · subst hbb
              simp [setCounter]
              omega
            · simpa [setCounter, hbb] using hlt
        · intro k hmem
          rcases List.mem_cons.mp hmem with he | hmem'
          · obtain ⟨hbb, _⟩ := composeName_inj (by simp) hb he
            exact absurd hbb.symm hbe
          · exact hAnon k hmem'

lemma runDedup_nodup_aux :
    ∀ (bs : List Str) (st : DedupState) (prev : List Str),
      (∀ b ∈ bs, '_' ∉ b) → DedupInv st prev →
      (runDedup bs st).1.Nodup ∧ ∀ o ∈ (runDedup bs st).1, o ∉ prev := by
  intro bs
  induction bs with
  | nil =>
    intro st prev _ _
    simp [runDedup]
  | cons b bs ih =>
    intro st prev hAll hInv
    have hb : '_' ∉ b := hAll b (List.mem_cons_self b bs)
    obtain ⟨hfresh, hInv'⟩ := assignName_fresh hb hInv
    obtain ⟨hnd, hdisj⟩ := ih (assignName b st).2 ((assignName b st).1 :: prev)
      (fun x hx => hAll x (List.mem_cons_of_mem b hx)) hInv'
    have hred : runDedup (b :: bs) st
        = ((assignName b st).1 :: (runDedup bs (assignName b st).2).1,
           (runDedup bs (assignName b st).2).2) := rfl
    rw [hred]
    constructor
    · refine List.nodup_cons.mpr ⟨?_, hnd⟩
      intro hmem
      exact (hdisj _ hmem) (List.mem_cons_self _ _)
    · intro o ho
      rcases List.mem_cons.mp ho with rfl | ho'
      · exact hfresh
      · exact fun hp => (hdisj o ho') (List.mem_cons_of_mem _ hp)

lemma runDedup_counters_not_mem :
    ∀ (bs : List Str) (st : DedupState) {b : Str}, b ∉ bs → b ≠ [] →
      ((runDedup bs st).2).counters b = st.counters b := by
  intro bs
  induction bs with
  | nil =>
    intro st b _ _
    rfl
  | cons x xs ih =>
    intro st b hnm hbne
    have hbx : ¬ (b = x) := fun he => hnm (he ▸ List.mem_cons_self x xs)
    have hxs : b ∉ xs := fun hm => hnm (List.mem_cons_of_mem x hm)
    have hred : (runDedup (x :: xs) st).2 = (runDedup xs (assignName x st).2).2 := rfl
    rw [hred, ih _ hxs hbne]
    unfold assignName
    by_cases hxe : x = []
    · simp [hxe]
    · by_cases hc : st.counters x = 0
      · simp [hxe, hc, setCounter, hbx]
      · simp [hxe, hc, setCounter, hbx]

lemma runDedup_append :
    ∀ (xs ys : List Str) (st : DedupState),
      runDedup (xs ++ ys) st
        = ((runDedup xs st).1 ++ (runDedup ys (runDedup xs st).2).1,
           (runDedup ys (runDedup xs st).2).2) := by
  intro xs
  induction xs with
  | nil =>
    intro ys st
    rfl
  | cons x xs ih =>
    intro ys st
    have hred : runDedup ((x :: xs) ++ ys) st
        = ((assignName x st).1 :: (runDedup (xs ++ ys) (assignName x st).2).1,
           (runDedup (xs ++ ys) (assignName x st).2).2) := rfl
    rw [hred, ih]
    rfl

lemma getD_append_len {α : Type} (l₁ l₂ : List α) (x : α) (d : α) :
    (l₁ ++ x :: l₂).getD l₁.length d = x := by
  induction l₁ with
  | nil => rfl
  | cons a as ih => exact ih

lemma runDedup_length :
    ∀ (bs : List Str) (st : DedupState), (runDedup bs st).1.length = bs.length := by
  intro bs
  induction bs with
  | nil =>
    intro st
    rfl
  | cons x xs ih =>
    intro st
    have hred : (runDedup (x :: xs) st).1
        = (assignName x st).1 :: (runDedup xs (assignName x st).2).1 := rfl
    rw [hred]
    simp [ih]

/-- Claim C4, counterexample to the claim as stated: over the run
`[A, A, A_1]` the deduplicator assigns the identifier `A_1` twice (the
suffixed copy of the second `A` collides with the later base name `A_1`),
and the never-seen empty base name is not returned unchanged (it is replaced
by the anonymous run-scoped counter name). -/
theorem nameDedup_claim_counterexample :
    ¬ (nameDedupRun ["A".data, "A".data, "A_1".data]).Nodup ∧
    nameDedupRun ["".data] ≠ ["".data] := by
  refine ⟨?_, ?_⟩ <;> decide

/-- Claim C4 (amended): within a single generation run over base names that
contain no underscore, the name deduplicator never assigns the same generated
identifier to two assignment calls; and for every nonempty base name not
previously seen in that run, the assigned identifier equals the base name
unchanged. -/
theorem nameDedup_unique_and_first_unchanged (bs : List Str) :
    ((∀ b ∈ bs, '_' ∉ b) → (nameDedupRun bs).Nodup) ∧
    (∀ pre b post, bs = pre ++ b :: post → b ∉ pre → b ≠ [] →
      (nameDedupRun bs).getD pre.length [] = b) := by
  constructor
  · intro hAll
    refine (runDedup_nodup_aux bs initDedupState [] hAll ?_).1
    exact dedupInv_nil initDedupState (fun _ => rfl) rfl
  · intro pre b post hbs hpre hbne
    subst hbs
    unfold nameDedupRun
    have h1 : (runDedup (pre ++ b :: post) initDedupState).1
        = (runDedup pre initDedupState).1
          ++ (runDedup (b :: post) (runDedup pre initDedupState).2).1 := by
      rw [runDedup_append]
    have hcnt : ((runDedup pre initDedupState).2).counters b = 0 :=
      runDedup_counters_not_mem pre initDedupState hpre hbne
    have hhead : (runDedup (b :: post) (runDedup pre initDedupState).2).1
        = (assignName b (runDedup pre initDedupState).2).1
          :: (runDedup post (assignName b (runDedup pre initDedupState).2).2).1 := rfl
    have hassign : (assignName b (runDedup pre initDedupState).2).1 = b := by
      unfold assignName
      rw [if_neg hbne, if_pos hcnt]
    rw [h1, hhead, hassign]
    have hlen : (runDedup pre initDedupState).1.length = pre.length :=
      runDedup_length pre _
    rw [← hlen]
    exact getD_append_len _ _ _ _

/-- Claim C4, witness: the amended theorem applied to the concrete run
`[A, B, A]` from the spec scenario. -/
theorem nameDedup_unique_witness :
    (nameDedupRun ["A".data, "B".data, "A".data]).Nodup ∧
    (nameDedupRun ["A".data, "B".data, "A".data]).getD 1 [] = "B".data :=
  ⟨(nameDedup_unique_and_first_unchanged _).1 (by decide),
   (nameDedup_unique_and_first_unchanged _).2 ["A".data] "B".data ["A".data] rfl
     (by decide) (by decide)⟩

/-! ## Actor classes, ignore list, module manifest -/

/-- A reference to a `UClass`: its name (without the UE letter marker) and its
full object path (`GetPathName`). -/
structure UClassRef where
  name : Str
  pathName : Str
deriving DecidableEq

/-- The ignore configuration consumed by the manager
(`IgnoreActorClasses` and `IgnoreActorClassPaths`). -/
structure IgnoreConfig where
  ignoreActorClasses : List UClassRef
  ignoreActorClassPaths : List Str

/-- `FReplicatorGeneratorManager::IsIgnoredActor`: a class is ignored when it
occurs in the ignore class list or its path name occurs in the ignore path
list. -/
def isIgnoredActor (cfg : IgnoreConfig) (targetClass : UClassRef) : Bool :=
  decide (targetClass ∈ cfg.ignoreActorClasses)
    || decide (targetClass.pathName ∈ cfg.ignoreActorClassPaths)

/-- The module information built by `RefreshModuleInfoByClassName`, reduced to
the mapping it is consulted for: class name to declaring header path. -/
abbrev ModuleManifest := List (Str × Str)

/-- `FReplicatorCodeGenerator::GetClassHeadFilePath`: lookup of the declaring
header path; the empty path signals an unresolvable class
(`HeaderFilesCanBeFound` tests the result for emptiness). -/
def getClassHeadFilePath (mm : ModuleManifest) (className : Str) : Str :=
  match mm.lookup className with
  | some p => p
  | none => []

/-- Descriptor-construction failures (spec 4.3/7): an intentionally excluded
class, or a class with no discoverable declaring header. -/
inductive DecorateError where
  | ignored
  | headerNotFound
deriving DecidableEq

/-- The per-class descriptor (`FReplicatedActorDecorator`), reduced to the
fields the manager and the claims consume. -/
structure FReplicatedActorDecorator where
  targetClass : UClassRef
  originActorName : Str
  generatedName : Str
  headFilePath : Str
deriving DecidableEq

/-- Modelled from the spec: `FReplicatorCodeGenerator::CreateDecorateActor`
(declared in `ReplicatorCodeGenerator.h`; its implementation is not among the
source files). Spec 4.3: reject with `Ignored` if the class is on the ignore
list; fail with `HeaderNotFound` when no declaring header resolves; obtain the
generated identifier from the name deduplicator when `bIncrementIfSameName`
is set, else use the base name verbatim. -/
def createDecorateActor (cfg : IgnoreConfig) (mm : ModuleManifest) (targetActor : UClassRef)
    (bIncrementIfSameName : Bool) (st : DedupState) :
    Except DecorateError FReplicatedActorDecorator × DedupState :=
  if isIgnoredActor cfg targetActor then (.error .ignored, st)
  else
    let headPath := getClassHeadFilePath mm targetActor.name
    if headPath = [] then (.error .headerNotFound, st)
    else if bIncrementIfSameName then
      let p := assignName targetActor.name st
      (.ok ⟨targetActor, targetActor.name, p.1, headPath⟩, p.2)
    else (.ok ⟨targetActor, targetActor.name, targetActor.name, headPath⟩, st)

/-! ## Code bundle assembly (`FReplicatorCodeGenerator::Generate`) -/

/-- Per-class generated header file name by the fixed naming convention. -/
def repHeadFileName (gen : Str) : Str := "Channeld".data ++ gen ++ "Replicator.h".data

/-- Per-class generated cpp file name by the fixed naming convention. -/
def repCppFileName (gen : Str) : Str := "Channeld".data ++ gen ++ "Replicator.cpp".data

/-- Per-class generated proto file name by the fixed naming convention. -/
def repProtoFileName (gen : Str) : Str := gen ++ ".proto".data

/-- Modelled from the spec: deterministic template rendering of the per-class
header text (spec 9, "structured template rendering over the normalized
descriptor data"); the concrete template text lives outside the two source
files, so a fixed deterministic rendering over descriptor and package names
stands in. -/
def renderHeadCode (d : FReplicatedActorDecorator) (ppn : Str) : Str :=
  "head ".data ++ d.generatedName ++ " ".data ++ ppn ++ " ".data ++ d.headFilePath

/-- Modelled from the spec: deterministic rendering of the per-class body
text. -/
def renderCppCode (d : FReplicatedActorDecorator) (ppn : Str) : Str :=
  "cpp ".data ++ d.generatedName ++ " ".data ++ ppn

/-- Modelled from the spec: deterministic rendering of the per-class schema
text. -/
def renderProtoCode (d : FReplicatedActorDecorator) (ppn gip : Str) : Str :=
  "proto ".data ++ d.generatedName ++ " ".data ++ ppn ++ " ".data ++ gip

/-- One per-class entry of the bundle (`FReplicatorCode`,
`ReplicatorCodeGenerator.h`). -/
structure FReplicatorCode where
  actorDecorator : FReplicatedActorDecorator
  headFileName : Str
  headCode : Str
  cppFileName : Str
  cppCode : Str
  protoFileName : Str
  protoDefinitionsFile : Str
  includeActorCode : Str
  registerReplicatorCode : Str
  channelDataProcessor_PathFNameVarDecl : Str
  channelDataProcessor_MergeCode : Str
  channelDataProcessor_GetStateCode : Str
  channelDataProcessor_SetStateCode : Str
deriving DecidableEq

/-- The assembled output bundle (`FGeneratedCodeBundle`,
`ReplicatorCodeGenerator.h`). -/
structure FGeneratedCodeBundle where
  typeDefinitionsHeadCode : Str
  typeDefinitionsCppCode : Str
  replicatorRegistrationHeadCode : Str
  replicatorCodes : List FReplicatorCode
  globalStructCodes : Str
  globalStructProtoDefinitions : Str
  channelDataProcessorHeadCode : Str
  channelDataProtoDefsFile : Str
deriving DecidableEq

/-- Modelled from the spec: assembly of one per-class `FReplicatorCode` entry
from its descriptor (spec 4.4). -/
def mkReplicatorCode (d : FReplicatedActorDecorator) (ppn gip : Str) : FReplicatorCode where
  actorDecorator := d
  headFileName := repHeadFileName d.generatedName
  headCode := renderHeadCode d ppn
  cppFileName := repCppFileName d.generatedName
  cppCode := renderCppCode d ppn
  protoFileName := repProtoFileName d.generatedName
  protoDefinitionsFile := renderProtoCode d ppn gip
  includeActorCode := "include ".data ++ d.headFilePath
  registerReplicatorCode := "register ".data ++ d.generatedName
  channelDataProcessor_PathFNameVarDecl := "pathvar ".data ++ d.targetClass.pathName
  channelDataProcessor_MergeCode := "merge ".data ++ d.generatedName
  channelDataProcessor_GetStateCode := "get ".data ++ d.generatedName
  channelDataProcessor_SetStateCode := "set ".data ++ d.generatedName

/-- Modelled from the spec: the per-class loop of
`FReplicatorCodeGenerator::Generate` (spec 4.4): classes failing `Ignored`
are skipped silently, any other descriptor failure aborts the whole run, and
each surviving class contributes one entry, in input order. -/
def generateRepCodes (cfg : IgnoreConfig) (mm : ModuleManifest) (ppn gip : Str) :
    List UClassRef → DedupState → Except DecorateError (List FReplicatorCode × DedupState)
  | [], st => .ok ([], st)
  | c :: cs, st =>
    match createDecorateActor cfg mm c true st with
    | (.error .ignored, st') => generateRepCodes cfg mm ppn gip cs st'
    | (.error e, _) => .error e
    | (.ok d, st') =>
      match generateRepCodes cfg mm ppn gip cs st' with
      | .error e => .error e
      | .ok (rcs, st'') => .ok (mkReplicatorCode d ppn gip :: rcs, st'')

/-- Modelled from the spec: the run-wide artifacts rendered once across all
surviving descriptors (spec 4.4). -/
def renderSharedArtifacts (rcs : List FReplicatorCode) (ppn gip : Str) : FGeneratedCodeBundle where
  typeDefinitionsHeadCode := "typedefhead ".data ++ ppn
  typeDefinitionsCppCode := "typedefcpp ".data ++ ppn
  replicatorRegistrationHeadCode := (rcs.map (fun rc => rc.registerReplicatorCode)).flatten
  replicatorCodes := rcs
  globalStructCodes := "globalstruct ".data ++ ppn
  globalStructProtoDefinitions := "globalproto ".data ++ ppn ++ gip
  channelDataProcessorHeadCode := (rcs.map (fun rc => rc.channelDataProcessor_MergeCode)).flatten
  channelDataProtoDefsFile := "channeldataproto ".data ++ ppn ++ gip

/-- Modelled from the spec: `FReplicatorCodeGenerator::Generate` (declared in
`ReplicatorCodeGenerator.h`; its implementation is not among the source
files), as a pure function of its inputs, with the run-scoped deduplication
state created fresh for the run (spec 4.4 and the run-context note of
spec 9). -/
def Generate (cfg : IgnoreConfig) (mm : ModuleManifest) (targetActors : List UClassRef)
    (protoPackageName goPackageImportPath : Str) :
    Except DecorateError FGeneratedCodeBundle :=
  match generateRepCodes cfg mm protoPackageName goPackageImportPath targetActors
      initDedupState with
  | .error e => .error e
  | .ok (rcs, _) => .ok (renderSharedArtifacts rcs protoPackageName goPackageImportPath)

/-- Boolean success test of an `Except` result. -/
def isOkE {ε α : Type} : Except ε α → Bool
  | .ok _ => true
  | .error _ => false

/-- Whether the assembled bundle contains a replicator entry for the given
class. -/
def bundleContainsClass (bundle : FGeneratedCodeBundle) (c : UClassRef) : Bool :=
  bundle.replicatorCodes.any (fun rc => decide (rc.actorDecorator.targetClass = c))

/-- Whether the run produced a replicator entry for the given class (false in
particular when the run failed). -/
def generateContainsClass (cfg : IgnoreConfig) (mm : ModuleManifest)
    (targetActors : List UClassRef) (ppn gip : Str) (c : UClassRef) : Bool :=
  match Generate cfg mm targetActors ppn gip with
  | .ok bundle => bundleContainsClass bundle c
  | .error _ => false

/-- A class survives descriptor construction exactly when it is ignored
(skip) or its declaring header resolves. -/
def classGeneratable (cfg : IgnoreConfig) (mm : ModuleManifest) (c : UClassRef) : Bool :=
  isIgnoredActor cfg c || decide (getClassHeadFilePath mm c.name ≠ [])

lemma isOkE_Generate (cfg : IgnoreConfig) (mm : ModuleManifest)
    (targetActors : List UClassRef) (ppn gip : Str) :
    isOkE (Generate cfg mm targetActors ppn gip)
      = isOkE (generateRepCodes cfg mm ppn gip targetActors initDedupState) := by
  unfold Generate
  cases hrec : generateRepCodes cfg mm ppn gip targetActors initDedupState with
  | error e => rfl
  | ok p =>
    obtain ⟨rcs, st'⟩ := p
    rfl

lemma generateRepCodes_cons_ok (cfg : IgnoreConfig) (mm : ModuleManifest) (ppn gip : Str)
    (c : UClassRef) (cs : List UClassRef) (st st₂ : DedupState)
    (d : FReplicatedActorDecorator)
    (hc : createDecorateActor cfg mm c true st = (.ok d, st₂)) :
    generateRepCodes cfg mm ppn gip (c :: cs) st
      = match generateRepCodes cfg mm ppn gip cs st₂ with
        | .error e => .error e
        | .ok (rcs, st'') => .ok (mkReplicatorCode d ppn gip :: rcs, st'') := by
  simp only [generateRepCodes]
  rw [hc]

lemma generateRepCodes_isOk (cfg : IgnoreConfig) (mm : ModuleManifest) (ppn gip : Str) :
    ∀ (cs : List UClassRef) (st : DedupState),
      isOkE (generateRepCodes cfg mm ppn gip cs st) = cs.all (classGeneratable cfg mm) := by
  intro cs
  induction cs with
  | nil =>
    intro st
    rfl
  | cons c cs ih =>
    intro st
    cases hig : isIgnoredActor cfg c with
    | true =>
      have hc : createDecorateActor cfg mm c true st = (.error .ignored, st) := by
        unfold createDecorateActor
        rw [if_pos hig]
      simp only [generateRepCodes]
      rw [hc, List.all_cons]
      show isOkE (generateRepCodes cfg mm ppn gip cs st) = _
      rw [ih st]
      simp [classGeneratable, hig]
    | false =>
      by_cases hhp : getClassHeadFilePath mm c.name = []
      · have hc : createDecorateActor cfg mm c true st = (.error .headerNotFound, st) := by
          unfold createDecorateActor
          rw [if_neg (by simp [hig]), if_pos hhp]
        simp only [generateRepCodes]
        rw [hc, List.all_cons]
        show false = _
        simp [classGeneratable, hig, hhp]
      · have hc : createDecorateActor cfg mm c true st
            = (.ok ⟨c, c.name, (assignName c.name st).1, getClassHeadFilePath mm c.name⟩,
               (assignName c.name st).2) := by
          unfold createDecorateActor
          rw [if_neg (by simp [hig]), if_neg hhp, if_pos rfl]
        rw [generateRepCodes_cons_ok cfg mm ppn gip c cs st _ _ hc, List.all_cons]
        have hall := ih (assignName c.name st).2
        cases hrec : generateRepCodes cfg mm ppn gip cs (assignName c.name st).2 with
        | error e =>
          rw [hrec] at hall
          simp only [isOkE] at hall
          show false = _
          simp [classGeneratable, hig, hhp, ← hall]
        | ok p =>
          obtain ⟨rcs, st''⟩ := p
          rw [hrec] at hall
          simp only [isOkE] at hall
          show true = _
          simp [classGeneratable, hig, hhp, ← hall]

lemma generateRepCodes_not_ignored (cfg : IgnoreConfig) (mm : ModuleManifest) (ppn gip : Str) :
    ∀ (cs : List UClassRef) (st : DedupState) (rcs : List FReplicatorCode) (st' : DedupState),
      generateRepCodes cfg mm ppn gip cs st = .ok (rcs, st') →
      ∀ rc ∈ rcs, isIgnoredActor cfg rc.actorDecorator.targetClass = false := by
  intro cs
  induction cs with
  | nil =>
    intro st rcs st' h rc hrc
    have : ([] : List FReplicatorCode) = rcs := congrArg Prod.fst (Except.ok.inj h)
    rw [← this] at hrc
    cases hrc
  | cons c cs ih =>
    intro st rcs st' h rc hrc
    cases hig : isIgnoredActor cfg c with
    | true =>
      have hc : createDecorateActor cfg mm c true st = (.error .ignored, st) := by
        unfold createDecorateActor
        rw [if_pos hig]
      simp only [generateRepCodes] at h
      rw [hc] at h
      exact ih st rcs st' h rc hrc
    | false =>
      by_cases hhp : getClassHeadFilePath mm c.name = []
      · have hc : createDecorateActor cfg mm c true st = (.error .headerNotFound, st) := by
          unfold createDecorateActor
          rw [if_neg (by simp [hig]), if_pos hhp]
        simp only [generateRepCodes] at h
        rw [hc] at h
        cases h
      · have hc : createDecorateActor cfg mm c true st
            = (.ok ⟨c, c.name, (assignName c.name st).1, getClassHeadFilePath mm c.name⟩,
               (assignName c.name st).2) := by
          unfold createDecorateActor
          rw [if_neg (by simp [hig]), if_neg hhp, if_pos rfl]
        rw [generateRepCodes_cons_ok cfg mm ppn gip c cs st _ _ hc] at h
        cases hrec : generateRepCodes cfg mm ppn gip cs (assignName c.name st).2 with
        | error e =>
          rw [hrec] at h
          have h' : (Except.error e : Except DecorateError (List FReplicatorCode × DedupState))
              = .ok (rcs, st') := h
          cases h'
        | ok p =>
          obtain ⟨rcs₀, st₀⟩ := p
          rw [hrec] at h
          have h' : Except.ok (ε := DecorateError)
              (mkReplicatorCode
                ⟨c, c.name, (assignName c.name st).1, getClassHeadFilePath mm c.name⟩ ppn gip
                :: rcs₀, st₀)
              = .ok (rcs, st') := h
          have hpair := Except.ok.inj h'
          have hrcs : mkReplicatorCode
              ⟨c, c.name, (assignName c.name st).1, getClassHeadFilePath mm c.name⟩ ppn gip
              :: rcs₀ = rcs := congrArg Prod.fst hpair
          rw [← hrcs] at hrc
          rcases List.mem_cons.mp hrc with rfl | hmem
          · exact hig
          · exact ih (assignName c.name st).2 rcs₀ st₀ hrec rc hmem

/-- Claim C3: for every class list, module manifest and package names, two
runs of the generation over the same class list in the same order with the
same module manifest produce equal bundles, and in particular byte-identical
generated text for every per-class artifact. -/
theorem generate_two_run_determinism (cfg : IgnoreConfig) (mm : ModuleManifest)
    (targetActors : List UClassRef) (ppn gip : Str) (b₁ b₂ : FGeneratedCodeBundle)
    (h₁ : Generate cfg mm targetActors ppn gip = .ok b₁)
    (h₂ : Generate cfg mm targetActors ppn gip = .ok b₂) :
    b₁ = b₂ ∧
    b₁.replicatorCodes.map (fun rc => rc.headCode)
      = b₂.replicatorCodes.map (fun rc => rc.headCode) ∧
    b₁.replicatorCodes.map (fun rc => rc.cppCode)
      = b₂.replicatorCodes.map (fun rc => rc.cppCode) ∧
    b₁.replicatorCodes.map (fun rc => rc.protoDefinitionsFile)
      = b₂.replicatorCodes.map (fun rc => rc.protoDefinitionsFile) := by
  have hb : b₁ = b₂ := Except.ok.inj (h₁.symm.trans h₂)
  subst hb
  exact ⟨rfl, rfl, rfl, rfl⟩

/-- A class that the test fixtures resolve. -/
def classA : UClassRef := ⟨"A".data, "/Game/A".data⟩

/-- A class whose path the ignoring fixture excludes. -/
def classX : UClassRef := ⟨"X".data, "/Game/X".data⟩

/-- Fixture: nothing ignored. -/
def cfgNone : IgnoreConfig := ⟨[], []⟩

/-- Fixture: `classX` ignored by path. -/
def cfgIgnX : IgnoreConfig := ⟨[], ["/Game/X".data]⟩

/-- Fixture: module manifest declaring a header for `classA` only. -/
def mmA : ModuleManifest := [("A".data, "Module/A.h".data)]

/-- An empty bundle, used as the fallback of `Except.toOption.getD`. -/
def defaultBundle : FGeneratedCodeBundle := ⟨[], [], [], [], [], [], [], []⟩

/-- The bundle of a concrete successful run. -/
def bundleA : FGeneratedCodeBundle :=
  ((Generate cfgNone mmA [classA] "pkg".data "gopkg".data).toOption).getD defaultBundle

/-- Claim C3, witness: the determinism theorem applied to a concrete run. -/
theorem generate_two_run_determinism_witness :
    bundleA = bundleA ∧
    bundleA.replicatorCodes.map (fun rc => rc.headCode)
      = bundleA.replicatorCodes.map (fun rc => rc.headCode) ∧
    bundleA.replicatorCodes.map (fun rc => rc.cppCode)
      = bundleA.replicatorCodes.map (fun rc => rc.cppCode) ∧
    bundleA.replicatorCodes.map (fun rc => rc.protoDefinitionsFile)
      = bundleA.replicatorCodes.map (fun rc => rc.protoDefinitionsFile) :=
  generate_two_run_determinism cfgNone mmA [classA] "pkg".data "gopkg".data
    bundleA bundleA rfl rfl

/-- Claim C8: every class on the ignore list is absent from the assembled
bundle and does not make the run fail; the assembly fails exactly when some
non-ignored class fails descriptor construction (its header does not
resolve), so all non-`Ignored` failures abort the whole assembly. -/
theorem generate_ignored_skipped_and_failures_abort (cfg : IgnoreConfig)
    (mm : ModuleManifest) (targetActors : List UClassRef) (ppn gip : Str) :
    (∀ c, c ∈ targetActors → isIgnoredActor cfg c = true →
      generateContainsClass cfg mm targetActors ppn gip c = false) ∧
    isOkE (Generate cfg mm targetActors ppn gip)
      = targetActors.all (classGeneratable cfg mm) := by
  constructor
  · intro c _ hig
    unfold generateContainsClass
    cases hgen : Generate cfg mm targetActors ppn gip with
    | error e => rfl
    | ok bundle =>
      unfold Generate at hgen
      cases hrec : generateRepCodes cfg mm ppn gip targetActors initDedupState with
      | error e =>
        rw [hrec] at hgen
        cases hgen
      | ok p =>
        obtain ⟨rcs, st'⟩ := p
        rw [hrec] at hgen
        have hb : renderSharedArtifacts rcs ppn gip = bundle := Except.ok.inj hgen
        have hrc := generateRepCodes_not_ignored cfg mm ppn gip targetActors
          initDedupState rcs st' hrec
        rw [← hb]
        unfold bundleContainsClass
        rw [List.any_eq_false]
        intro rc hmem
        have hni := hrc rc hmem
        simp only [decide_eq_true_eq]
        intro he
        rw [he] at hni
        rw [hig] at hni
        cases hni
  · rw [isOkE_Generate]
    exact generateRepCodes_isOk cfg mm ppn gip targetActors initDedupState

/-- Claim C8, witness: in a run over the ignored `classX` followed by the
resolvable `classA`, the ignored class is absent from the bundle. -/
theorem generate_ignored_skipped_witness :
    generateContainsClass cfgIgnX mmA [classX, classA] "pkg".data "gopkg".data classX
      = false :=
  (generate_ignored_skipped_and_failures_abort cfgIgnX mmA [classX, classA]
    "pkg".data "gopkg".data).1 classX (by decide) (by decide)

/-! ## File system world -/

/-- A JSON field value, as far as the manifest uses them. -/
inductive JVal where
  | jnum (n : Int)
  | jstr (s : Str)
deriving DecidableEq

/-- Contents of a file: plain code text, a well-formed JSON object (the
engine JSON serializer, an external collaborator, is modelled at the level of
parsed objects), or text that does not parse as JSON. -/
inductive FileContent where
  | text (s : Str)
  | jsonDoc (fields : List (Str × JVal))
  | badJson (s : Str)
deriving DecidableEq

/-- The file-system world: stored files, existing directories, and success
oracles for the external write and mkdir operations. -/
structure World where
  files : List (Str × FileContent)
  dirs : List Str
  writeOk : Str → Bool
  mkdirOk : Str → Bool

/-- Contents stored at a path. -/
def lookupFile (w : World) (path : Str) : Option FileContent := w.files.lookup path

/-- `FFileHelper::SaveStringToFile`: overwrites the file when the world's
write oracle allows it, and reports success. -/
def saveStringToFile (w : World) (path : Str) (c : FileContent) : World × Bool :=
  if w.writeOk path then
    ({ w with files := (path, c) :: w.files.filter (fun pc => decide (pc.1 ≠ path)) }, true)
  else (w, false)

/-- `IPlatformFile::DeleteFile`: removes the file if present and reports
whether anything was deleted; callers in the source discard the report. -/
def deleteFile (w : World) (path : Str) : World × Bool :=
  ({ w with files := w.files.filter (fun pc => decide (pc.1 ≠ path)) },
   decide (lookupFile w path ≠ none))

/-- `FPaths::DirectoryExists`. -/
def directoryExists (w : World) (d : Str) : Bool := decide (d ∈ w.dirs)

/-- `FPaths::GetPath`: the portion of the path before the final slash. -/
def getPath (s : Str) : Str :=
  ((s.reverse.dropWhile (fun c => decide (c ≠ '/'))).drop 1).reverse

/-! ## Generated manifest (`FGeneratedManifest`) -/

/-- Ticks per second of `FTimespan`/`FDateTime`. -/
def ticksPerSecond : Int := 10000000

/-- `FDateTime(1970, 1, 1).GetTicks()`. -/
def unixEpochTicks : Int := 621355968000000000

/-- `FDateTime`: a count of 100ns ticks. -/
structure FDateTime where
  ticks : Int
deriving DecidableEq

/-- `FDateTime::ToUnixTimestamp`: whole seconds since the unix epoch,
truncated toward zero as by C++ integer division. -/
def FDateTime.toUnixTimestamp (d : FDateTime) : Int :=
  (d.ticks - unixEpochTicks).tdiv ticksPerSecond

/-- `FDateTime::FromUnixTimestamp`. -/
def FDateTime.fromUnixTimestamp (s : Int) : FDateTime :=
  ⟨unixEpochTicks + s * ticksPerSecond⟩

/-- The persisted run record (`FGeneratedManifest`). -/
structure FGeneratedManifest where
  generatedTime : FDateTime
  protoPackageName : Str
deriving DecidableEq

/-- JSON key of the generation timestamp. -/
def gtKey : Str := "GeneratedTime".data

/-- JSON key of the schema package name. -/
def ppnKey : Str := "ProtoPackageName".data

/-- The JSON object written by `SaveGeneratedManifest` through the engine
JSON writer: the timestamp in whole unix seconds and the package name. -/
def serializeManifest (m : FGeneratedManifest) : FileContent :=
  .jsonDoc [(gtKey, .jnum m.generatedTime.toUnixTimestamp),
            (ppnKey, .jstr m.protoPackageName)]

/-- `FJsonSerializer::Deserialize` (external collaborator): succeeds exactly
on well-formed JSON object documents. -/
def deserialize : FileContent → Option (List (Str × JVal))
  | .jsonDoc fields => some fields
  | _ => none

/-- `FJsonObject::TryGetNumberField`. -/
def tryGetNumberField (fields : List (Str × JVal)) (key : Str) : Option Int :=
  match fields.lookup key with
  | some (.jnum n) => some n
  | _ => none

/-- `FJsonObject::TryGetStringField`. -/
def tryGetStringField (fields : List (Str × JVal)) (key : Str) : Option Str :=
  match fields.lookup key with
  | some (.jstr s) => some s
  | _ => none

/-- Message set when the manifest file cannot be read. -/
def msgUnableToLoad (f : Str) : Str := "Unable to load GeneratedManifest: ".data ++ f

/-- Message set when the manifest JSON does not parse. -/
def msgMalformed (f : Str) : Str := "GeneratedManifest is malformed: ".data ++ f

/-- Message set when the manifest directory does not exist. -/
def msgDirMissing (f : Str) : Str :=
  "Unable to find the directory of GeneratedManifest: ".data ++ f

/-- Message set by `SaveGeneratedManifest` on its write-succeeded branch. -/
def msgUnableToSave (f : Str) : Str := "Unable to save GeneratedManifest: ".data ++ f

/-- The warnings `LoadLatestGeneratedManifest` can log for missing fields. -/
inductive LoadWarning where
  | missingGeneratedTime
  | missingProtoPackageName
deriving DecidableEq

/-- Result of `LoadLatestGeneratedManifest`: returned flag, the in-out
message, the in-out manifest, and the warnings logged. -/
structure LoadResult where
  ret : Bool
  message : Str
  result : FGeneratedManifest
  warnings : List LoadWarning
deriving DecidableEq

/-- `FReplicatorGeneratorManager::LoadLatestGeneratedManifest` (three-argument
overload). `uninitializedTime` models the value of the local
`double GeneratedTime`, which the source declares without an initializer and
converts with `FDateTime::FromUnixTimestamp` even when the JSON field was
absent; `result₀` and `message₀` are the caller's in-out parameters. -/
def loadLatestGeneratedManifest (filename : Str) (w : World) (uninitializedTime : Int)
    (result₀ : FGeneratedManifest) (message₀ : Str) : LoadResult :=
  match lookupFile w filename with
  | none => ⟨false, msgUnableToLoad filename, result₀, []⟩
  | some content =>
    match deserialize content with
    | none => ⟨false, msgMalformed filename, result₀, []⟩
    | some root =>
      let gtp : Int × List LoadWarning :=
        match tryGetNumberField root gtKey with
        | some n => (n, [])
        | none => (uninitializedTime, [.missingGeneratedTime])
      let r₁ : FGeneratedManifest :=
        { result₀ with generatedTime := FDateTime.fromUnixTimestamp gtp.1 }
      match tryGetStringField root ppnKey with
      | some p => ⟨true, message₀, { r₁ with protoPackageName := p }, gtp.2⟩
      | none => ⟨true, message₀, r₁, gtp.2 ++ [.missingProtoPackageName]⟩

/-- Result of `SaveGeneratedManifest`: the world after the call, the returned
flag, and the in-out message. -/
structure SaveResult where
  world : World
  ret : Bool
  message : Str

/-- `FReplicatorGeneratorManager::SaveGeneratedManifest` (three-argument
overload), with the source's branch polarity kept as written: missing
directory sets a message and returns false; a successful
`FFileHelper::SaveStringToFile` sets an error message and returns false; a
failed write returns true with the message untouched. -/
def saveGeneratedManifest (m : FGeneratedManifest) (filename : Str) (message₀ : Str)
    (w : World) : SaveResult :=
  if directoryExists w (getPath filename) then
    let p := saveStringToFile w filename (serializeManifest m)
    if p.2 then ⟨p.1, false, msgUnableToSave filename⟩
    else ⟨p.1, true, message₀⟩
  else ⟨w, false, msgDirMissing filename⟩

/-! ## The generation orchestrator (`GeneratedReplicators`) -/

/-- The path constants the manager writes to (`GenManager_*` constants of
`ReplicatorGeneratorDefinition.h`, which is not among the source files, plus
the storage-dir-derived channel-data paths), kept as an abstract parameter
record. -/
structure GenPaths where
  storageDir : Str
  typeDefinitionsHeadFile : Str
  typeDefinitionsCppFile : Str
  repRegistrationHeadFile : Str
  globalStructHeaderFile : Str
  globalStructProtoFile : Str
  channelDataHeadFilePath : Str
  channelDataProtoFilePath : Str
  intermediateDir : Str
  manifestFilePath : Str

/-- `FPaths::operator/`. -/
def pathJoin (a b : Str) : Str := a ++ "/".data ++ b

/-- `FReplicatorGeneratorManager::WriteCodeFile`: saves the text and returns
the write result; the `ResultMessage` out parameter is returned untouched,
exactly as in the source, which never assigns it. -/
def writeCodeFile (filePath code resultMessage : Str) (w : World) : World × Bool × Str :=
  let p := saveStringToFile w filePath (.text code)
  (p.1, p.2, resultMessage)

/-- `FReplicatorGeneratorManager::WriteProtoFile`: delegates to
`WriteCodeFile`. -/
def writeProtoFile (filePath protoContent resultMessage : Str) (w : World) :
    World × Bool × Str :=
  writeCodeFile filePath protoContent resultMessage w

/-- `EnsureReplicatorGeneratedIntermediateDir`: creates the intermediate
directory when missing; the `MakeDirectory` result is discarded, so a failed
creation leaves the world unchanged. -/
def ensureReplicatorGeneratedIntermediateDir (intermediateDir : Str) (w : World) : World :=
  if directoryExists w intermediateDir then w
  else if w.mkdirOk intermediateDir then { w with dirs := intermediateDir :: w.dirs }
  else w

/-- `SaveGeneratedManifest` (two-argument overload): ensures the intermediate
directory, then saves to the manifest file path. -/
def saveGeneratedManifest2 (paths : GenPaths) (m : FGeneratedManifest) (message₀ : Str)
    (w : World) : SaveResult :=
  saveGeneratedManifest m paths.manifestFilePath message₀
    (ensureReplicatorGeneratedIntermediateDir paths.intermediateDir w)

/-- Observable events of a generation run. -/
inductive GenEvent where
  | write (path : Str)
  | saveManifest (path : Str)
deriving DecidableEq

/-- The artifact writes `GeneratedReplicators` performs, in source order:
the type-definition pair, the three files per replicator entry, the
registration header, the global-struct pair, and the channel-data pair. -/
def artifactWrites (paths : GenPaths) (bundle : FGeneratedCodeBundle) :
    List (Str × Str) :=
  [(pathJoin paths.storageDir paths.typeDefinitionsHeadFile, bundle.typeDefinitionsHeadCode),
   (pathJoin paths.storageDir paths.typeDefinitionsCppFile, bundle.typeDefinitionsCppCode)]
  ++ (bundle.replicatorCodes.map (fun rc =>
        [(pathJoin paths.storageDir rc.headFileName, rc.headCode),
         (pathJoin paths.storageDir rc.cppFileName, rc.cppCode),
         (pathJoin paths.storageDir rc.protoFileName, rc.protoDefinitionsFile)])).flatten
  ++ [(pathJoin paths.storageDir paths.repRegistrationHeadFile,
       bundle.replicatorRegistrationHeadCode),
      (pathJoin paths.storageDir paths.globalStructHeaderFile, bundle.globalStructCodes),
      (pathJoin paths.storageDir paths.globalStructProtoFile,
       bundle.globalStructProtoDefinitions),
      (paths.channelDataHeadFilePath, bundle.channelDataProcessorHeadCode),
      (paths.channelDataProtoFilePath, bundle.channelDataProtoDefsFile)]

/-- The write phase of the run: one `WriteCodeFile` call per artifact,
threading the message parameter and recording a write event per call. -/
def writePhase : List (Str × Str) → Str → World → World × Str × List GenEvent
  | [], msg, w => (w, msg, [])
  | (p, c) :: rest, msg, w =>
    let r := writeCodeFile p c msg w
    let q := writePhase rest r.2.2 r.1
    (q.1, q.2.1, .write p :: q.2.2)

/-- Result of a `GeneratedReplicators` run: final world, returned flag, final
value of the local `Message`, and the event trace. -/
structure RunResult where
  world : World
  ret : Bool
  message : Str
  trace : List GenEvent

/-- `FReplicatorGeneratorManager::GeneratedReplicators`: writes every bundle
artifact, then saves a manifest stamped with the current time and the proto
package name, and returns false exactly when `SaveGeneratedManifest` returned
true. The result of the `CodeGenerator->Generate` call is passed in as
`genOk` with the bundle out parameter as `bundle`; the source discards
`genOk`. -/
def generatedReplicators (paths : GenPaths) (protoPackageName : Str) (now : FDateTime)
    (_genOk : Bool) (bundle : FGeneratedCodeBundle) (w : World) : RunResult :=
  let wp := writePhase (artifactWrites paths bundle) [] w
  let manifest : FGeneratedManifest := ⟨now, protoPackageName⟩
  let sr := saveGeneratedManifest2 paths manifest wp.2.1 wp.1
  if sr.ret then
    ⟨sr.world, false, sr.message, wp.2.2 ++ [.saveManifest paths.manifestFilePath]⟩
  else
    ⟨sr.world, true, sr.message, wp.2.2 ++ [.saveManifest paths.manifestFilePath]⟩

/-! ## Removal of generated artifacts -/

/-- Modelled from the spec: the generated header extension constant
(`CodeGen_HeadFileExtension`, declared in `ReplicatorGeneratorDefinition.h`,
which is not among the source files). -/
def CodeGen_HeadFileExtension : Str := ".h".data

/-- Modelled from the spec: the generated cpp extension constant. -/
def CodeGen_CppFileExtension : Str := ".cpp".data

/-- Modelled from the spec: the schema file extension constant. -/
def CodeGen_ProtoFileExtension : Str := ".proto".data

/-- Modelled from the spec: the protobuf-generated header extension
constant. -/
def CodeGen_ProtoPbHeadExtension : Str := ".pb.h".data

/-- Modelled from the spec: the protobuf-generated cpp extension constant. -/
def CodeGen_ProtoPbCPPExtension : Str := ".pb.cpp".data

/-- `FReplicatorGeneratorManager::RemoveGeneratedReplicator`: issues exactly
five delete requests reconstructed from the class name by the fixed naming
convention, in source order, discarding each `DeleteFile` result; also
returns the request list as the observable trace. -/
def removeGeneratedReplicator (className : Str) (w : World) : World × List Str :=
  let p₁ := "Channeld".data ++ className ++ "Replicator".data ++ CodeGen_CppFileExtension
  let p₂ := "Channeld".data ++ className ++ "Replicator".data ++ CodeGen_HeadFileExtension
  let p₃ := className ++ CodeGen_ProtoFileExtension
  let p₄ := className ++ CodeGen_ProtoPbHeadExtension
  let p₅ := className ++ CodeGen_ProtoPbCPPExtension
  let w₁ := (deleteFile w p₁).1
  let w₂ := (deleteFile w₁ p₂).1
  let w₃ := (deleteFile w₂ p₃).1
  let w₄ := (deleteFile w₃ p₄).1
  let w₅ := (deleteFile w₄ p₅).1
  (w₅, [p₁, p₂, p₃, p₄, p₅])

/-! ## Enumeration of previously generated classes -/

/-- ASCII word characters, the regex class `\w`. -/
def wordChar (c : Char) : Bool := c.isAlphanum || decide (c = '_')

/-- The capture group check of the matcher: `\w+` must cover the whole
middle, which must be nonempty. -/
def matchMid (mid : Str) : Option Str :=
  if decide (mid ≠ []) && mid.all wordChar then some mid else none

/-- The matcher after the literal `Channeld` has been consumed: the rest must
end in the literal `Replicator.h` and the part before it is the capture. -/
def matchAfterChanneld (rest : Str) : Option Str :=
  if "Replicator.h".data.isSuffixOf rest then
    matchMid (rest.take (rest.length - 12))
  else none

/-- The anchored regex `^Channeld(\w+)Replicator\.h$` used by
`GetGeneratedTargetClasses`, as a matcher returning the capture group. -/
def matchReplicatorHead (s : Str) : Option Str :=
  if "Channeld".data.isPrefixOf s then matchAfterChanneld (s.drop 8)
  else none

/-- `FReplicatorGeneratorManager::GetGeneratedTargetClasses`, over the list
of header file names found in the replicator storage directory. -/
def getGeneratedTargetClasses (headFiles : List Str) : List Str :=
  headFiles.filterMap matchReplicatorHead

lemma matchReplicatorHead_complete (name : Str) (hne : name ≠ [])
    (hw : name.all wordChar = true) :
    matchReplicatorHead ("Channeld".data ++ name ++ "Replicator.h".data) = some name := by
  have hassoc : "Channeld".data ++ name ++ "Replicator.h".data
      = "Channeld".data ++ (name ++ "Replicator.h".data) := by
    rw [List.append_assoc]
  rw [hassoc]
  have hpre : "Channeld".data.isPrefixOf
      ("Channeld".data ++ (name ++ "Replicator.h".data)) = true :=
    List.isPrefixOf_iff_prefix.mpr (List.prefix_append _ _)
  unfold matchReplicatorHead
  rw [if_pos hpre]
  have hdrop : ("Channeld".data ++ (name ++ "Replicator.h".data)).drop 8
      = name ++ "Replicator.h".data := List.drop_left "Channeld".data _
  rw [hdrop]
  unfold matchAfterChanneld
  have hsuf : "Replicator.h".data.isSuffixOf (name ++ "Replicator.h".data) = true :=
    List.isSuffixOf_iff_suffix.mpr (List.suffix_append _ _)
  rw [if_pos hsuf]
  have hlen : (name ++ "Replicator.h".data).length - 12 = name.length := by
    simp [List.length_append]
  rw [hlen]
  have htake : (name ++ "Replicator.h".data).take name.length = name :=
    List.take_left _ _
  rw [htake]
  unfold matchMid
  rw [if_pos (by simp [hne, hw])]

lemma matchReplicatorHead_sound {s r : Str} (h : matchReplicatorHead s = some r) :
    s = "Channeld".data ++ r ++ "Replicator.h".data ∧ r ≠ [] ∧ r.all wordChar = true := by
  unfold matchReplicatorHead at h
  split at h
  · case isTrue hpre =>
    obtain ⟨t, ht⟩ := List.isPrefixOf_iff_prefix.mp hpre
    have hdrop : s.drop 8 = t := by
      rw [← ht]
      exact List.drop_left "Channeld".data t
    unfold matchAfterChanneld at h
    split at h
    · case isTrue hsuf =>
      obtain ⟨m, hm⟩ := List.isSuffixOf_iff_suffix.mp hsuf
      have hlen : (s.drop 8).length - 12 = m.length := by
        rw [← hm]
        simp [List.length_append]
      rw [hlen] at h
      have htake : (s.drop 8).take m.length = m := by
        rw [← hm]
        exact List.take_left _ _
      rw [htake] at h
      unfold matchMid at h
      split at h
      · case isTrue hcond =>
        have hr : m = r := Option.some.inj h
        subst hr
        have hcond' := hcond
        rw [Bool.and_eq_true, decide_eq_true_eq] at hcond'
        refine ⟨?_, hcond'.1, hcond'.2⟩
        rw [← ht, ← hdrop, ← hm]
        rw [List.append_assoc]
      · case isFalse => cases h
    · case isFalse => cases h
  · case isFalse => cases h

/-- Claim C10: the enumeration of previously generated classes maps each
found header file name through the anchored pattern
`^Channeld(\w+)Replicator\.h$`: a name of that exact shape yields precisely
the captured middle, and anything yielded comes from a name of that exact
shape (so non-matching names contribute nothing). -/
theorem getGeneratedTargetClasses_spec :
    (∀ files : List Str,
      getGeneratedTargetClasses files = files.filterMap matchReplicatorHead) ∧
    (∀ name : Str, name ≠ [] → name.all wordChar = true →
      matchReplicatorHead ("Channeld".data ++ name ++ "Replicator.h".data) = some name) ∧
    (∀ s r : Str, matchReplicatorHead s = some r →
      s = "Channeld".data ++ r ++ "Replicator.h".data ∧ r ≠ [] ∧ r.all wordChar = true) :=
  ⟨fun _ => rfl,
   matchReplicatorHead_complete,
   fun _ _ h => matchReplicatorHead_sound h⟩

/-- Claim C10, witness: the pattern applied to `ChanneldFooReplicator.h`
captures `Foo`. -/
theorem getGeneratedTargetClasses_witness :
    matchReplicatorHead "ChanneldFooReplicator.h".data = some "Foo".data :=
  getGeneratedTargetClasses_spec.2.1 "Foo".data (by decide) (by decide)

lemma lookup_cons_key {β : Type} (k q : Str) (v : β) (rest : List (Str × β)) :
    List.lookup q ((k, v) :: rest)
      = if k = q then some v else List.lookup q rest := by
  by_cases hk : k = q
  · subst hk
    simp [List.lookup]
  · have hb : (q == k) = false := beq_eq_false_iff_ne.mpr (fun he => hk he.symm)
    simp [List.lookup, hb, hk]

lemma lookup_filter_ne (files : List (Str × FileContent)) (p q : Str) :
    (files.filter (fun pc => decide (pc.1 ≠ p))).lookup q
      = if q = p then none else files.lookup q := by
  induction files with
  | nil =>
    split <;> rfl
  | cons pc rest ih =>
    obtain ⟨k, v⟩ := pc
    by_cases hp : k = p
    · rw [List.filter_cons_of_neg (by simp [hp])]
      by_cases hq : q = p
      · rw [ih, if_pos hq, if_pos hq]
      · rw [ih, if_neg hq, if_neg hq, lookup_cons_key,
          if_neg (by rw [hp]; exact fun he => hq he.symm)]
    · rw [List.filter_cons_of_pos (by simp [hp]), lookup_cons_key, lookup_cons_key]
      by_cases hkq : k = q
      · have hq : ¬ (q = p) := by
          rw [← hkq]
          exact hp
        rw [if_pos hkq, if_pos hkq, if_neg hq]
      · rw [if_neg hkq, if_neg hkq, ih]

/-- Claim C9: for every class name and every world (in particular worlds in
which none of the files exist, so absence is never an error), the removal
operation issues delete requests for exactly the five files derived from the
class name by the fixed naming convention, deletes exactly those paths, and
leaves every other file untouched. -/
theorem removeGeneratedReplicator_spec (className : Str) (w : World) :
    (removeGeneratedReplicator className w).2
      = ["Channeld".data ++ className ++ "Replicator.cpp".data,
         "Channeld".data ++ className ++ "Replicator.h".data,
         className ++ ".proto".data,
         className ++ ".pb.h".data,
         className ++ ".pb.cpp".data] ∧
    (∀ q, q ∈ (removeGeneratedReplicator className w).2 →
      lookupFile (removeGeneratedReplicator className w).1 q = none) ∧
    (∀ q, q ∉ (removeGeneratedReplicator className w).2 →
      lookupFile (removeGeneratedReplicator className w).1 q = lookupFile w q) := by
  have e1 : "Replicator".data ++ ".cpp".data = "Replicator.cpp".data := by decide
  have e2 : "Replicator".data ++ ".h".data = "Replicator.h".data := by decide
  have hreq : (removeGeneratedReplicator className w).2
      = ["Channeld".data ++ className ++ "Replicator.cpp".data,
         "Channeld".data ++ className ++ "Replicator.h".data,
         className ++ ".proto".data,
         className ++ ".pb.h".data,
         className ++ ".pb.cpp".data] := by
    simp only [removeGeneratedReplicator, CodeGen_CppFileExtension, CodeGen_HeadFileExtension,
      CodeGen_ProtoFileExtension, CodeGen_ProtoPbHeadExtension, CodeGen_ProtoPbCPPExtension,
      List.append_assoc, e1, e2]
  have hlook : ∀ q, lookupFile (removeGeneratedReplicator className w).1 q
      = if q = className ++ CodeGen_ProtoPbCPPExtension then none
        else if q = className ++ CodeGen_ProtoPbHeadExtension then none
        else if q = className ++ CodeGen_ProtoFileExtension then none
        else if q = "Channeld".data ++ className ++ "Replicator".data
            ++ CodeGen_HeadFileExtension then none
        else if q = "Channeld".data ++ className ++ "Replicator".data
            ++ CodeGen_CppFileExtension then none
        else lookupFile w q := by
    intro q
    simp only [removeGeneratedReplicator, deleteFile, lookupFile]
    rw [lookup_filter_ne, lookup_filter_ne, lookup_filter_ne, lookup_filter_ne,
      lookup_filter_ne]
  refine ⟨hreq, ?_, ?_⟩
  · intro q hq
    rw [hreq] at hq
    rw [hlook q]
    simp only [List.mem_cons, List.not_mem_nil, or_false] at hq
    have hq' : q = "Channeld".data ++ className ++ "Replicator".data
          ++ CodeGen_CppFileExtension
        ∨ q = "Channeld".data ++ className ++ "Replicator".data
          ++ CodeGen_HeadFileExtension
        ∨ q = className ++ CodeGen_ProtoFileExtension
        ∨ q = className ++ CodeGen_ProtoPbHeadExtension
        ∨ q = className ++ CodeGen_ProtoPbCPPExtension := by
      simp only [CodeGen_CppFileExtension, CodeGen_HeadFileExtension,
        CodeGen_ProtoFileExtension, CodeGen_ProtoPbHeadExtension,
        CodeGen_ProtoPbCPPExtension, List.append_assoc, e1, e2]
      exact hq
    split_ifs with h5 h4 h3 h2 h1
    · rfl
    · rfl
    · rfl
    · rfl
    · rfl
    · rcases hq' with h | h | h | h | h
      · exact absurd h h1
      · exact absurd h h2
      · exact absurd h h3
      · exact absurd h h4
      · exact absurd h h5
  · intro q hq
    rw [hreq] at hq
    rw [hlook q]
    simp only [List.mem_cons, List.not_mem_nil, or_false, not_or] at hq
    obtain ⟨n1, n2, n3, n4, n5⟩ := hq
    have n1' : ¬ (q = "Channeld".data ++ className ++ "Replicator".data
        ++ CodeGen_CppFileExtension) := by
      simpa [CodeGen_CppFileExtension, List.append_assoc, e1] using n1
    have n2' : ¬ (q = "Channeld".data ++ className ++ "Replicator".data
        ++ CodeGen_HeadFileExtension) := by
      simpa [CodeGen_HeadFileExtension, List.append_assoc, e2] using n2
    rw [if_neg (by simpa [CodeGen_ProtoPbCPPExtension] using n5),
      if_neg (by simpa [CodeGen_ProtoPbHeadExtension] using n4),
      if_neg (by simpa [CodeGen_ProtoFileExtension] using n3),
      if_neg n2', if_neg n1']

/-- Claim C9, witness: removing `Foo` in a world holding one unrelated file
issues the five conventional delete requests and leaves the unrelated file
alone. -/
theorem removeGeneratedReplicator_witness :
    (removeGeneratedReplicator "Foo".data
        ⟨[("Other.h".data, .text [])], [], fun _ => true, fun _ => true⟩).2
      = ["ChanneldFooReplicator.cpp".data, "ChanneldFooReplicator.h".data,
         "Foo.proto".data, "Foo.pb.h".data, "Foo.pb.cpp".data] ∧
    lookupFile (removeGeneratedReplicator "Foo".data
        ⟨[("Other.h".data, .text [])], [], fun _ => true, fun _ => true⟩).1 "Other.h".data
      = some (.text []) := by
  constructor
  · have h := (removeGeneratedReplicator_spec "Foo".data
      ⟨[("Other.h".data, .text [])], [], fun _ => true, fun _ => true⟩).1
    rw [h]
    decide
  · have h := (removeGeneratedReplicator_spec "Foo".data
      ⟨[("Other.h".data, .text [])], [], fun _ => true, fun _ => true⟩).2.2 "Other.h".data
    rw [h]
    · rfl
    · rw [(removeGeneratedReplicator_spec "Foo".data
        ⟨[("Other.h".data, .text [])], [], fun _ => true, fun _ => true⟩).1]
      decide

lemma toUnix_fromUnix (s : Int) : (FDateTime.fromUnixTimestamp s).toUnixTimestamp = s := by
  unfold FDateTime.toUnixTimestamp FDateTime.fromUnixTimestamp
  have h : unixEpochTicks + s * ticksPerSecond - unixEpochTicks = s * ticksPerSecond := by
    ring
  show (unixEpochTicks + s * ticksPerSecond - unixEpochTicks).tdiv ticksPerSecond = s
  rw [h]
  exact Int.mul_tdiv_cancel s (by norm_num [ticksPerSecond])

/-- Claim C6: saving a manifest and loading from the same path (in a world
whose directory exists and whose write succeeds, so that the save actually
writes the file) yields a manifest whose timestamp equals the saved one up to
whole-second (unix-timestamp) precision and whose schema package name equals
the saved one. -/
theorem saveLoad_roundtrip (m : FGeneratedManifest) (filename : Str) (msg₀ msg₁ : Str)
    (junk : Int) (r₀ : FGeneratedManifest) (w : World)
    (hdir : directoryExists w (getPath filename) = true)
    (hwrite : w.writeOk filename = true) :
    (loadLatestGeneratedManifest filename
        (saveGeneratedManifest m filename msg₀ w).world junk r₀ msg₁).ret = true ∧
    (loadLatestGeneratedManifest filename
        (saveGeneratedManifest m filename msg₀ w).world junk r₀
        msg₁).result.generatedTime.toUnixTimestamp
      = m.generatedTime.toUnixTimestamp ∧
    (loadLatestGeneratedManifest filename
        (saveGeneratedManifest m filename msg₀ w).world junk r₀
        msg₁).result.protoPackageName
      = m.protoPackageName := by
  have hsave : (saveGeneratedManifest m filename msg₀ w).world
      = { w with files := (filename, serializeManifest m)
            :: w.files.filter (fun pc => decide (pc.1 ≠ filename)) } := by
    unfold saveGeneratedManifest
    rw [if_pos hdir]
    unfold saveStringToFile
    rw [if_pos hwrite]
    rfl
  rw [hsave]
  have hlook : lookupFile
      { w with files := (filename, serializeManifest m)
          :: w.files.filter (fun pc => decide (pc.1 ≠ filename)) } filename
      = some (serializeManifest m) := by
    unfold lookupFile
    rw [lookup_cons_key, if_pos rfl]
  have hgt : tryGetNumberField
      [(gtKey, .jnum m.generatedTime.toUnixTimestamp), (ppnKey, .jstr m.protoPackageName)]
      gtKey = some m.generatedTime.toUnixTimestamp := by
    unfold tryGetNumberField
    rw [lookup_cons_key, if_pos rfl]
  have hppn : tryGetStringField
      [(gtKey, .jnum m.generatedTime.toUnixTimestamp), (ppnKey, .jstr m.protoPackageName)]
      ppnKey = some m.protoPackageName := by
    unfold tryGetStringField
    rw [lookup_cons_key, if_neg (by decide), lookup_cons_key, if_pos rfl]
  simp only [loadLatestGeneratedManifest, hlook]
  simp only [serializeManifest, deserialize]
  simp only [hgt, hppn]
  exact ⟨trivial, toUnix_fromUnix _, trivial⟩

/-- Fixture: manifest file path whose parent directory is `Inter`. -/
def fnW : Str := "Inter/Manifest.json".data

/-- Fixture: a manifest value whose timestamp has sub-second ticks. -/
def mW : FGeneratedManifest :=
  ⟨⟨unixEpochTicks + 1700000000 * ticksPerSecond + 999⟩, "pkg".data⟩

/-- Fixture: world with the manifest directory present and writes
succeeding. -/
def wInterOk : World := ⟨[], ["Inter".data], fun _ => true, fun _ => true⟩

/-- Fixture: world with the manifest directory present and writes failing. -/
def wInterNoWrite : World := ⟨[], ["Inter".data], fun _ => false, fun _ => true⟩

/-- Claim C6, witness: the round-trip theorem applied to a concrete manifest,
path and world. -/
theorem saveLoad_roundtrip_witness :
    (loadLatestGeneratedManifest fnW
        (saveGeneratedManifest mW fnW [] wInterOk).world 0 ⟨⟨0⟩, []⟩ []).ret = true ∧
    (loadLatestGeneratedManifest fnW
        (saveGeneratedManifest mW fnW [] wInterOk).world 0 ⟨⟨0⟩, []⟩
        []).result.generatedTime.toUnixTimestamp
      = mW.generatedTime.toUnixTimestamp ∧
    (loadLatestGeneratedManifest fnW
        (saveGeneratedManifest mW fnW [] wInterOk).world 0 ⟨⟨0⟩, []⟩
        []).result.protoPackageName
      = mW.protoPackageName :=
  saveLoad_roundtrip mW fnW [] [] 0 ⟨⟨0⟩, []⟩ wInterOk (by decide) rfl

/-- Claim C2: evaluation of `SaveGeneratedManifest` at concrete inputs. When
the directory exists and the write succeeds — the file is actually stored —
the function returns false with the message `Unable to save
GeneratedManifest`; when the write fails it returns true; when the directory
is missing it returns false. The returned flag is therefore not "ok exactly
when the manifest file is written successfully" but its opposite on the
write path, and the DirMissing and success cases are indistinguishable by the
returned flag. -/
theorem saveManifest_inverted_polarity :
    (saveGeneratedManifest mW fnW [] wInterOk).ret = false ∧
    (saveGeneratedManifest mW fnW [] wInterOk).message = msgUnableToSave fnW ∧
    lookupFile (saveGeneratedManifest mW fnW [] wInterOk).world fnW
      = some (serializeManifest mW) ∧
    (saveGeneratedManifest mW fnW [] wInterNoWrite).ret = true ∧
    (saveGeneratedManifest mW fnW []
        ⟨[], [], fun _ => true, fun _ => true⟩).ret = false ∧
    (saveGeneratedManifest mW fnW []
        ⟨[], [], fun _ => true, fun _ => true⟩).message = msgDirMissing fnW :=
  ⟨rfl, rfl, rfl, rfl, rfl, rfl⟩

/-- Claim C5: evaluation of `LoadLatestGeneratedManifest`. On a missing file
it returns false with a message naming the path; on unparsable JSON it
returns false with the malformed message; on a parsed object with both fields
missing it succeeds and warns, but the resulting timestamp is the converted
value of the uninitialized local double (42 versus 7 below), not a fixed
default. -/
theorem load_missing_field_not_default :
    (loadLatestGeneratedManifest fnW
        ⟨[], [], fun _ => true, fun _ => true⟩ 42 ⟨⟨0⟩, []⟩ []).ret = false ∧
    (loadLatestGeneratedManifest fnW
        ⟨[], [], fun _ => true, fun _ => true⟩ 42 ⟨⟨0⟩, []⟩ []).message
      = msgUnableToLoad fnW ∧
    (loadLatestGeneratedManifest fnW
        ⟨[(fnW, .badJson "x".data)], [], fun _ => true, fun _ => true⟩ 42 ⟨⟨0⟩, []⟩
        []).ret = false ∧
    (loadLatestGeneratedManifest fnW
        ⟨[(fnW, .badJson "x".data)], [], fun _ => true, fun _ => true⟩ 42 ⟨⟨0⟩, []⟩
        []).message = msgMalformed fnW ∧
    (loadLatestGeneratedManifest fnW
        ⟨[(fnW, .jsonDoc [])], [], fun _ => true, fun _ => true⟩ 42 ⟨⟨0⟩, []⟩
        []).ret = true ∧
    (loadLatestGeneratedManifest fnW
        ⟨[(fnW, .jsonDoc [])], [], fun _ => true, fun _ => true⟩ 42 ⟨⟨0⟩, []⟩
        []).warnings
      = [.missingGeneratedTime, .missingProtoPackageName] ∧
    (loadLatestGeneratedManifest fnW
        ⟨[(fnW, .jsonDoc [])], [], fun _ => true, fun _ => true⟩ 42 ⟨⟨0⟩, []⟩
        []).result.generatedTime
      ≠ (loadLatestGeneratedManifest fnW
          ⟨[(fnW, .jsonDoc [])], [], fun _ => true, fun _ => true⟩ 7 ⟨⟨0⟩, []⟩
          []).result.generatedTime :=
  ⟨rfl, rfl, rfl, rfl, rfl, rfl, by decide⟩

/-- Fixture: the path constants of a run whose manifest lives in the
intermediate directory `Inter`. -/
def paths1 : GenPaths :=
  ⟨"Gen".data, "TypeDef.h".data, "TypeDef.cpp".data, "RepReg.h".data,
   "GlobStruct.h".data, "GlobStruct.proto".data, "Gen/ChannelData.h".data,
   "Gen/ChannelData.proto".data, "Inter".data, fnW⟩

/-- Claim C1: evaluation of `GeneratedReplicators` at a run in which the
assembly result is false (discarded by the source) and the manifest cannot be
saved (its directory is missing and creating it fails): the run still returns
true (success), the manifest file is never written, and the directory-missing
error message is set but swallowed. -/
theorem generatedReplicators_swallows_failures :
    (generatedReplicators paths1 "pkg".data ⟨0⟩ false defaultBundle
        ⟨[], [], fun _ => true, fun _ => false⟩).ret = true ∧
    lookupFile (generatedReplicators paths1 "pkg".data ⟨0⟩ false defaultBundle
        ⟨[], [], fun _ => true, fun _ => false⟩).world fnW = none ∧
    (generatedReplicators paths1 "pkg".data ⟨0⟩ false defaultBundle
        ⟨[], [], fun _ => true, fun _ => false⟩).message = msgDirMissing fnW :=
  ⟨rfl, rfl, rfl⟩

lemma writePhase_spec :
    ∀ (ws : List (Str × Str)) (msg : Str) (w : World),
      (writePhase ws msg w).2.1 = msg ∧
      (writePhase ws msg w).2.2 = ws.map (fun pc => GenEvent.write pc.1) := by
  intro ws
  induction ws with
  | nil =>
    intro msg w
    exact ⟨rfl, rfl⟩
  | cons pc rest ih =>
    intro msg w
    obtain ⟨p, c⟩ := pc
    have hred : writePhase ((p, c) :: rest) msg w
        = ((writePhase rest msg (writeCodeFile p c msg w).1).1,
           (writePhase rest msg (writeCodeFile p c msg w).1).2.1,
           GenEvent.write p :: (writePhase rest msg (writeCodeFile p c msg w).1).2.2) := rfl
    rw [hred]
    obtain ⟨h1, h2⟩ := ih msg (writeCodeFile p c msg w).1
    exact ⟨h1, by rw [List.map_cons, h2]⟩

/-- Claim C7 (amended): every artifact write of the bundle is attempted, in
source order, regardless of which writes the world lets fail (the trace is a
function of the paths and bundle alone), and the manifest save happens
strictly after all artifact writes; however the write phase leaves the run's
message untouched — no write-error message is ever recorded, because
`WriteCodeFile` never assigns its `ResultMessage` parameter. -/
theorem generatedReplicators_writes_all_then_saves (paths : GenPaths) (ppn : Str)
    (now : FDateTime) (genOk : Bool) (bundle : FGeneratedCodeBundle) (w : World) :
    (generatedReplicators paths ppn now genOk bundle w).trace
      = (artifactWrites paths bundle).map (fun pc => GenEvent.write pc.1)
        ++ [GenEvent.saveManifest paths.manifestFilePath] ∧
    (writePhase (artifactWrites paths bundle) [] w).2.1 = [] := by
  constructor
  · have h := (writePhase_spec (artifactWrites paths bundle) [] w).2
    simp only [generatedReplicators]
    split
    · exact congrArg (fun t => t ++ [GenEvent.saveManifest paths.manifestFilePath]) h
    · exact congrArg (fun t => t ++ [GenEvent.saveManifest paths.manifestFilePath]) h
  · exact (writePhase_spec _ _ _).1

/-- Claim C7, counterexample to the claim as stated: in a run in which every
artifact write fails (no file ends up in the world), the run's result message
is empty — the first write-error message is not recorded anywhere. -/
theorem generatedReplicators_message_counterexample :
    (generatedReplicators paths1 "pkg".data ⟨0⟩ true defaultBundle
        ⟨[], ["Inter".data], fun _ => false, fun _ => true⟩).message = [] ∧
    (generatedReplicators paths1 "pkg".data ⟨0⟩ true defaultBundle
        ⟨[], ["Inter".data], fun _ => false, fun _ => true⟩).world.files = [] :=
  ⟨rfl, rfl⟩

end ChanneldGen
